import Mathlib

/-!
Verification of the embedded-hal interface-contract core: the error
taxonomy (`src/errors.rs`), the blocking-from-nonblocking SPI bridge, the
transactional composition layer and the chip-select-managed wrapper
(`src/blocking/spi.rs`).  The Rust code is shallowly embedded: traits
become structures of state-passing functions, `&mut self` methods become
functions `state → state × result`, slices become lists, and the `nb`
crate's `block!` polling macro becomes a fuel-indexed loop.
-/

namespace EmbeddedHal

/-! ### Error taxonomy, from `src/errors.rs` -/

namespace errors

namespace i2c

/-- `errors::i2c::ErrorKind` from `src/errors.rs`. -/
inductive ErrorKind : Type where
  | Bus
  | ArbitrationLoss
  | NoAcknowledge
  | Overrun
  | Underrun
  | Other
deriving DecidableEq, Repr

/-- `impl Error for ErrorKind { fn kind(&self) -> ErrorKind { *self } }`. -/
def ErrorKind.kind (s : ErrorKind) : ErrorKind := s

end i2c

namespace spi

/-- `errors::spi::ErrorKind` from `src/errors.rs`. -/
inductive ErrorKind : Type where
  | Bus
  | Overrun
  | ModeFault
  | Crc
  | FrameFormat
  | Other
deriving DecidableEq, Repr

/-- `impl Error for ErrorKind { fn kind(&self) -> ErrorKind { *self } }`. -/
def ErrorKind.kind (s : ErrorKind) : ErrorKind := s

end spi

namespace serial

/-- `errors::serial::ErrorKind` from `src/errors.rs`. -/
inductive ErrorKind : Type where
  | Overrun
  | FrameFormat
  | Parity
  | Noise
  | Other
deriving DecidableEq, Repr

/-- `impl Error for ErrorKind { fn kind(&self) -> ErrorKind { *self } }`. -/
def ErrorKind.kind (s : ErrorKind) : ErrorKind := s

end serial

end errors

/-! ### The non-blocking primitive and the `nb::block!` loop -/

/-- Result of one non-blocking primitive call: the `nb::Result` type of the
`nb` crate — either the `WouldBlock` sentinel, success, or a genuine error. -/
inductive NbResult (E α : Type) : Type where
  | wouldBlock : NbResult E α
  | ok (a : α) : NbResult E α
  | err (e : E) : NbResult E α
deriving DecidableEq, Repr

/-- The non-blocking word-level SPI primitive `nb::spi::FullDuplex`
(declared outside the provided sources; its shape is fixed by its callers in
`src/blocking/spi.rs` and by the spec's non-blocking primitive contract):
a `read` returning one word and a `write` taking one word, both fallible and
both allowed to signal "would block".  A driver is a pair of state-passing
functions over a driver-chosen state type `σ`. -/
structure FullDuplex (σ W E : Type) : Type where
  read : σ → σ × NbResult E W
  write : σ → W → σ × NbResult E Unit

/-- The `nb::block!` macro: repeatedly invoke the non-blocking call `f`
until it stops returning `wouldBlock`; `fuel` bounds the number of polls so
the loop is total, and exhausting it yields `none` (the code's loop would
still be polling). -/
def block {σ E α : Type} (f : σ → σ × NbResult E α) : Nat → σ → σ × Option (Except E α)
  | 0, s => (s, none)
  | fuel + 1, s =>
    match f s with
    | (s', NbResult.wouldBlock) => block f fuel s'
    | (s', NbResult.ok a) => (s', some (Except.ok a))
    | (s', NbResult.err e) => (s', some (Except.error e))

/-! ### The blocking bridge, from `src/blocking/spi.rs` -/

namespace blocking

namespace spi

variable {σ W E : Type}

/-- The blanket `blocking::spi::Transfer` impl for `FullDuplex` implementers
(`src/blocking/spi.rs` lines 51-58): for each word in order,
`nb::block!(self.write(word.clone()))?` then
`*word = nb::block!(self.read())?`; on success the (overwritten) buffer is
returned. -/
def transfer (d : FullDuplex σ W E) (fuel : Nat) : List W → σ → σ × Option (Except E (List W))
  | [], s => (s, some (Except.ok []))
  | w :: ws, s =>
    match block (fun s => d.write s w) fuel s with
    | (s1, some (Except.ok _)) =>
      match block d.read fuel s1 with
      | (s2, some (Except.ok r)) =>
        match transfer d fuel ws s2 with
        | (s3, some (Except.ok rs)) => (s3, some (Except.ok (r :: rs)))
        | (s3, some (Except.error e)) => (s3, some (Except.error e))
        | (s3, none) => (s3, none)
      | (s2, some (Except.error e)) => (s2, some (Except.error e))
      | (s2, none) => (s2, none)
    | (s1, some (Except.error e)) => (s1, some (Except.error e))
    | (s1, none) => (s1, none)

/-- The blanket `blocking::spi::Write` impl for `FullDuplex` implementers
(`src/blocking/spi.rs` lines 75-82): for each word in order,
`nb::block!(self.write(word.clone()))?` then `nb::block!(self.read())?`,
the read value being discarded. -/
def write (d : FullDuplex σ W E) (fuel : Nat) : List W → σ → σ × Option (Except E Unit)
  | [], s => (s, some (Except.ok ()))
  | w :: ws, s =>
    match block (fun s => d.write s w) fuel s with
    | (s1, some (Except.ok _)) =>
      match block d.read fuel s1 with
      | (s2, some (Except.ok _)) => write d fuel ws s2
      | (s2, some (Except.error e)) => (s2, some (Except.error e))
      | (s2, none) => (s2, none)
    | (s1, some (Except.error e)) => (s1, some (Except.error e))
    | (s1, none) => (s1, none)

/-- The blanket `blocking::spi::WriteIter` impl (`src/blocking/spi.rs`
lines 99-109): identical loop to `write`, the word source being an iterator
drained in order; a fully-evaluated iterator is a list. -/
def write_iter (d : FullDuplex σ W E) (fuel : Nat) : List W → σ → σ × Option (Except E Unit)
  | [], s => (s, some (Except.ok ()))
  | w :: ws, s =>
    match block (fun s => d.write s w) fuel s with
    | (s1, some (Except.ok _)) =>
      match block d.read fuel s1 with
      | (s2, some (Except.ok _)) => write_iter d fuel ws s2
      | (s2, some (Except.error e)) => (s2, some (Except.error e))
      | (s2, none) => (s2, none)
    | (s1, some (Except.error e)) => (s1, some (Except.error e))
    | (s1, none) => (s1, none)

/-- Modelled from the spec: the separate-buffer
`transfer(read_buf, write_buf)` of the blocking bridge (spec section 4.3) is
not among the provided source files (the file `src/blocking/spi.rs` only
contains the single-buffer in-place variant).  Per the spec: iterate for
`max(len(read_buf), len(write_buf))` steps; at step `i` write
`write_buf[i]` if in range else the `fill` value, then read one word and
store it into `read_buf[i]` if in range else discard it.  The updated
read buffer is returned on success. -/
def transfer_rw (d : FullDuplex σ W E) (fill : W) (fuel : Nat) :
    List W → List W → σ → σ × Option (Except E (List W))
  | [], [], s => (s, some (Except.ok []))
  | [], w :: wb, s =>
    match block (fun s => d.write s w) fuel s with
    | (s1, some (Except.ok _)) =>
      match block d.read fuel s1 with
      | (s2, some (Except.ok _)) => transfer_rw d fill fuel [] wb s2
      | (s2, some (Except.error e)) => (s2, some (Except.error e))
      | (s2, none) => (s2, none)
    | (s1, some (Except.error e)) => (s1, some (Except.error e))
    | (s1, none) => (s1, none)
  | _ :: rb, wbuf, s =>
    match block (fun s => d.write s (wbuf.headD fill)) fuel s with
    | (s1, some (Except.ok _)) =>
      match block d.read fuel s1 with
      | (s2, some (Except.ok v)) =>
        match transfer_rw d fill fuel rb wbuf.tail s2 with
        | (s3, some (Except.ok vs)) => (s3, some (Except.ok (v :: vs)))
        | (s3, some (Except.error e)) => (s3, some (Except.error e))
        | (s3, none) => (s3, none)
      | (s2, some (Except.error e)) => (s2, some (Except.error e))
      | (s2, none) => (s2, none)
    | (s1, some (Except.error e)) => (s1, some (Except.error e))
    | (s1, none) => (s1, none)
termination_by rbuf wbuf _ => rbuf.length + wbuf.length
decreasing_by
  all_goals simp [List.length_tail]
  all_goals omega

/-- `blocking::spi::Operation` (`src/blocking/spi.rs` lines 117-122): one
step of a composed bus transaction, either a write from a borrowed buffer or
an in-place transfer on a borrowed mutable buffer. -/
inductive Operation (W : Type) : Type where
  | Write (w : List W) : Operation W
  | Transfer (t : List W) : Operation W
deriving DecidableEq, Repr

/-- A blocking SPI bus as seen by the transactional layer and the
chip-select wrapper: the three blocking trait methods
(`Transfer::transfer`, `Write::write`, `WriteIter::write_iter`) of an
arbitrary implementer, as state-passing functions over a bus-chosen state
type `σ`. -/
structure SpiBus (σ W E : Type) : Type where
  transfer : σ → List W → σ × Except E (List W)
  write : σ → List W → σ × Except E Unit
  write_iter : σ → List W → σ × Except E Unit

/-- The blanket `blocking::spi::Transactional` impl
(`src/blocking/spi.rs` lines 149-158): for each operation in order,
`Operation::Write(w) => self.write(w)?` and
`Operation::Transfer(t) => self.transfer(t).map(|_| ())?`; the first error
aborts the remaining operations, and `Ok(())` is returned when every
operation succeeds. -/
def exec (b : SpiBus σ W E) : List (Operation W) → σ → σ × Except E Unit
  | [], s => (s, Except.ok ())
  | Operation.Write w :: ops, s =>
    match b.write s w with
    | (s1, Except.ok _) => exec b ops s1
    | (s1, Except.error e) => (s1, Except.error e)
  | Operation.Transfer t :: ops, s =>
    match b.transfer s t with
    | (s1, Except.ok _) => exec b ops s1
    | (s1, Except.error e) => (s1, Except.error e)

/-! ### The chip-select-managed wrapper `spi_with_cs` -/

/-- The `digital::OutputPin` collaborator (declared outside the provided
sources; its shape is fixed by its use in `src/blocking/spi.rs` and the
spec section 6): fallible `try_set_low` / `try_set_high`, as state-passing
functions over a pin-chosen state type `π`. -/
structure OutputPin (π E : Type) : Type where
  try_set_low : π → π × Except E Unit
  try_set_high : π → π × Except E Unit

/-- `spi_with_cs::SpiWithCsError` (`src/blocking/spi.rs` lines 184-189):
tags which sub-system produced a failure. -/
inductive SpiWithCsError (SpiError PinError : Type) : Type where
  | Spi (e : SpiError) : SpiWithCsError SpiError PinError
  | Pin (e : PinError) : SpiWithCsError SpiError PinError
deriving DecidableEq, Repr

/-- `spi_with_cs::SpiWithCs` (`src/blocking/spi.rs` lines 174-180): owns the
bus handle and the chip-select pin handle.  The phantom error parameters
carry no data and are dropped in the embedding. -/
structure SpiWithCs (Spi Pin : Type) : Type where
  spi : Spi
  cs : Pin
deriving DecidableEq, Repr

/-- `SpiWithCs::new` (`src/blocking/spi.rs` lines 201-208). -/
def SpiWithCs.new {Spi Pin : Type} (spi : Spi) (cs : Pin) : SpiWithCs Spi Pin :=
  { spi := spi, cs := cs }

/-- `SpiWithCs::destroy` (`src/blocking/spi.rs` lines 217-219). -/
def SpiWithCs.destroy {Spi Pin : Type} (s : SpiWithCs Spi Pin) : Spi × Pin :=
  (s.spi, s.cs)

variable {π SE PE : Type}

/-- `Transfer for SpiWithCs` (`src/blocking/spi.rs` lines 232-244):
assert CS (`try_set_low`, failure propagated as `Pin` at once), attempt the
bus transfer capturing its result mapped through `Spi`, deassert CS
(`try_set_high`, failure propagated as `Pin` at once, overriding the
captured result), otherwise return the captured result. -/
def try_transfer (bus : SpiBus σ W SE) (pin : OutputPin π PE)
    (dev : SpiWithCs σ π) (data : List W) :
    SpiWithCs σ π × Except (SpiWithCsError SE PE) (List W) :=
  match pin.try_set_low dev.cs with
  | (cs1, Except.error e) => ({ spi := dev.spi, cs := cs1 }, Except.error (SpiWithCsError.Pin e))
  | (cs1, Except.ok _) =>
    let res := bus.transfer dev.spi data
    let spi_result : Except (SpiWithCsError SE PE) (List W) :=
      match res.2 with
      | Except.ok r => Except.ok r
      | Except.error e => Except.error (SpiWithCsError.Spi e)
    match pin.try_set_high cs1 with
    | (cs2, Except.error e) => ({ spi := res.1, cs := cs2 }, Except.error (SpiWithCsError.Pin e))
    | (cs2, Except.ok _) => ({ spi := res.1, cs := cs2 }, spi_result)

/-- `Write for SpiWithCs` (`src/blocking/spi.rs` lines 257-269): same
assert / attempt / deassert sequence around the bus `try_write`. -/
def try_write (bus : SpiBus σ W SE) (pin : OutputPin π PE)
    (dev : SpiWithCs σ π) (data : List W) :
    SpiWithCs σ π × Except (SpiWithCsError SE PE) Unit :=
  match pin.try_set_low dev.cs with
  | (cs1, Except.error e) => ({ spi := dev.spi, cs := cs1 }, Except.error (SpiWithCsError.Pin e))
  | (cs1, Except.ok _) =>
    let res := bus.write dev.spi data
    let spi_result : Except (SpiWithCsError SE PE) Unit :=
      match res.2 with
      | Except.ok r => Except.ok r
      | Except.error e => Except.error (SpiWithCsError.Spi e)
    match pin.try_set_high cs1 with
    | (cs2, Except.error e) => ({ spi := res.1, cs := cs2 }, Except.error (SpiWithCsError.Pin e))
    | (cs2, Except.ok _) => ({ spi := res.1, cs := cs2 }, spi_result)

/-- `WriteIter for SpiWithCs` (`src/blocking/spi.rs` lines 282-298): same
assert / attempt / deassert sequence around the bus `try_write_iter`. -/
def try_write_iter (bus : SpiBus σ W SE) (pin : OutputPin π PE)
    (dev : SpiWithCs σ π) (words : List W) :
    SpiWithCs σ π × Except (SpiWithCsError SE PE) Unit :=
  match pin.try_set_low dev.cs with
  | (cs1, Except.error e) => ({ spi := dev.spi, cs := cs1 }, Except.error (SpiWithCsError.Pin e))
  | (cs1, Except.ok _) =>
    let res := bus.write_iter dev.spi words
    let spi_result : Except (SpiWithCsError SE PE) Unit :=
      match res.2 with
      | Except.ok r => Except.ok r
      | Except.error e => Except.error (SpiWithCsError.Spi e)
    match pin.try_set_high cs1 with
    | (cs2, Except.error e) => ({ spi := res.1, cs := cs2 }, Except.error (SpiWithCsError.Pin e))
    | (cs2, Except.ok _) => ({ spi := res.1, cs := cs2 }, spi_result)

/-! ### Instrumented drivers, pins and buses for the observable behaviour -/

/-- One observable event at the non-blocking primitive: a word written, or a
read performed. -/
inductive Ev (W : Type) : Type where
  | wr (w : W) : Ev W
  | rd : Ev W
deriving DecidableEq, Repr

/-- State of the instrumented driver: how many primitive write calls and
read calls have happened, and the full event trace (`wouldBlock` polls
included). -/
structure DrvState (W : Type) : Type where
  nw : Nat
  nr : Nat
  tr : List (Ev W)
deriving DecidableEq, Repr

/-- Instrumented `FullDuplex` driver: the response of the n-th primitive
write call is `wsc n`, the response of the n-th primitive read call is
`rsc n`, and every call is recorded in the trace. -/
def scriptDriver {W E : Type} (wsc : Nat → NbResult E Unit) (rsc : Nat → NbResult E W) :
    FullDuplex (DrvState W) W E where
  read := fun s => ({ s with nr := s.nr + 1, tr := s.tr ++ [Ev.rd] }, rsc s.nr)
  write := fun s w => ({ s with nw := s.nw + 1, tr := s.tr ++ [Ev.wr w] }, wsc s.nw)

/-- The echo driver: its state is the last word written, and a read returns
that word.  Every call succeeds immediately. -/
def echoDriver {W E : Type} : FullDuplex W W E where
  read := fun s => (s, NbResult.ok s)
  write := fun _ w => (w, NbResult.ok ())

/-- The trace left by an always-ready driver run over a word list: each word
is written once and followed by exactly one read. -/
def pairTrace {W : Type} : List W → List (Ev W)
  | [] => []
  | w :: ws => Ev.wr w :: Ev.rd :: pairTrace ws

/-- Number of primitive write events in a trace. -/
def wrCount {W : Type} : List (Ev W) → Nat
  | [] => 0
  | Ev.wr _ :: t => wrCount t + 1
  | Ev.rd :: t => wrCount t

/-- Number of primitive read events in a trace. -/
def rdCount {W : Type} : List (Ev W) → Nat
  | [] => 0
  | Ev.wr _ :: t => rdCount t
  | Ev.rd :: t => rdCount t + 1

/-- The written words of a trace, in order. -/
def wrWords {W : Type} : List (Ev W) → List W
  | [] => []
  | Ev.wr w :: t => w :: wrWords t
  | Ev.rd :: t => wrWords t

/-- One observable pin event: select asserted (`low`) or deasserted
(`high`). -/
inductive PinEv : Type where
  | low : PinEv
  | high : PinEv
deriving DecidableEq, Repr

/-- Instrumented `OutputPin`: its state is the event trace; `try_set_low`
always answers `lowRes` and `try_set_high` always answers `highRes`. -/
def tracePin {PE : Type} (lowRes highRes : Except PE Unit) : OutputPin (List PinEv) PE where
  try_set_low := fun t => (t ++ [PinEv.low], lowRes)
  try_set_high := fun t => (t ++ [PinEv.high], highRes)

/-- One observable call on a blocking SPI bus. -/
inductive BusCall (W : Type) : Type where
  | w (ws : List W) : BusCall W
  | t (buf : List W) : BusCall W
  | wi (ws : List W) : BusCall W
deriving DecidableEq, Repr

/-- Instrumented blocking bus: its state counts calls and records them; the
n-th call fails with `e` when `resp n = some e` and succeeds otherwise (a
successful transfer echoes its buffer back). -/
def scriptBus {W E : Type} (resp : Nat → Option E) : SpiBus (Nat × List (BusCall W)) W E where
  transfer := fun s buf =>
    ((s.1 + 1, s.2 ++ [BusCall.t buf]),
      match resp s.1 with
      | none => Except.ok buf
      | some e => Except.error e)
  write := fun s ws =>
    ((s.1 + 1, s.2 ++ [BusCall.w ws]),
      match resp s.1 with
      | none => Except.ok ()
      | some e => Except.error e)
  write_iter := fun s ws =>
    ((s.1 + 1, s.2 ++ [BusCall.wi ws]),
      match resp s.1 with
      | none => Except.ok ()
      | some e => Except.error e)

/-- The bus call an `Operation` delegates to: `Write` to the blocking
write, `Transfer` to the blocking in-place transfer. -/
def opCall {W : Type} : Operation W → BusCall W
  | Operation.Write w => BusCall.w w
  | Operation.Transfer t => BusCall.t t

/-- The last element of a list, or `s` when the list is empty: the final
state of the echo driver after a run. -/
def lastOr {W : Type} (s : W) : List W → W
  | [] => s
  | w :: ws => lastOr w ws

end spi

end blocking

open blocking.spi

/-! ### Helper lemmas -/

lemma transfer_echo {W E : Type} (buf : List W) (s : W) (fuel : Nat) :
    transfer (echoDriver (E := E)) (fuel + 1) buf s
      = (lastOr s buf, some (Except.ok buf)) := by
  induction buf generalizing s with
  | nil => rfl
  | cons w ws ih =>
    have ihw := ih w
    simp only [transfer, block, echoDriver, lastOr] at ihw ⊢
    rw [ihw]

lemma pairTrace_wrWords {W : Type} (ws : List W) : wrWords (pairTrace ws) = ws := by
  induction ws with
  | nil => rfl
  | cons w ws ih => simp [pairTrace, wrWords, ih]

lemma pairTrace_wrCount {W : Type} (ws : List W) : wrCount (pairTrace ws) = ws.length := by
  induction ws with
  | nil => rfl
  | cons w ws ih => simp [pairTrace, wrCount, ih]

lemma pairTrace_rdCount {W : Type} (ws : List W) : rdCount (pairTrace ws) = ws.length := by
  induction ws with
  | nil => rfl
  | cons w ws ih => simp [pairTrace, rdCount, ih]

lemma scriptDriver_write {W E : Type} (wsc : Nat → NbResult E Unit) (rsc : Nat → NbResult E W)
    (s : DrvState W) (w : W) :
    (scriptDriver wsc rsc).write s w
      = ({ s with nw := s.nw + 1, tr := s.tr ++ [Ev.wr w] }, wsc s.nw) := rfl

lemma scriptDriver_read {W E : Type} (wsc : Nat → NbResult E Unit) (rsc : Nat → NbResult E W)
    (s : DrvState W) :
    (scriptDriver wsc rsc).read s
      = ({ s with nr := s.nr + 1, tr := s.tr ++ [Ev.rd] }, rsc s.nr) := rfl

lemma write_allok {W E : Type} (rsc : Nat → W) (fuel : Nat) :
    ∀ (ws : List W) (s : DrvState W),
      write (scriptDriver (E := E) (fun _ => NbResult.ok ()) (fun n => NbResult.ok (rsc n)))
          (fuel + 1) ws s
        = ({ nw := s.nw + ws.length, nr := s.nr + ws.length, tr := s.tr ++ pairTrace ws },
           some (Except.ok ())) := by
  intro ws
  induction ws with
  | nil =>
    intro s
    simp [write, pairTrace]
  | cons w ws ih =>
    intro s
    simp only [write, block, scriptDriver_write, scriptDriver_read]
    rw [ih]
    simp [DrvState.mk.injEq, pairTrace, List.append_assoc, Nat.add_comm,
      Nat.add_left_comm, Nat.add_assoc]

lemma write_iter_eq_write {σ W E : Type} (d : FullDuplex σ W E) (fuel : Nat) :
    ∀ (ws : List W) (s : σ), write_iter d fuel ws s = write d fuel ws s := by
  intro ws
  induction ws with
  | nil => intro s; rfl
  | cons w ws ih =>
    intro s
    simp only [write_iter, write]
    split
    · split
      · exact ih _
      · rfl
      · rfl
    · rfl
    · rfl

lemma block_scriptWrite_step {W E : Type} (wsc : Nat → NbResult E Unit)
    (rsc : Nat → NbResult E W) (w : W) (fuel : Nat) (s : DrvState W) :
    block (fun s => (scriptDriver wsc rsc).write s w) (fuel + 1) s
      = match wsc s.nw with
        | NbResult.wouldBlock =>
            block (fun s => (scriptDriver wsc rsc).write s w) fuel
              { s with nw := s.nw + 1, tr := s.tr ++ [Ev.wr w] }
        | NbResult.ok a =>
            ({ s with nw := s.nw + 1, tr := s.tr ++ [Ev.wr w] }, some (Except.ok a))
        | NbResult.err e =>
            ({ s with nw := s.nw + 1, tr := s.tr ++ [Ev.wr w] }, some (Except.error e)) := by
  cases hw : wsc s.nw <;> simp [block, scriptDriver_write, hw]

lemma block_scriptRead_step {W E : Type} (wsc : Nat → NbResult E Unit)
    (rsc : Nat → NbResult E W) (fuel : Nat) (s : DrvState W) :
    block (scriptDriver wsc rsc).read (fuel + 1) s
      = match rsc s.nr with
        | NbResult.wouldBlock =>
            block (scriptDriver wsc rsc).read fuel
              { s with nr := s.nr + 1, tr := s.tr ++ [Ev.rd] }
        | NbResult.ok a =>
            ({ s with nr := s.nr + 1, tr := s.tr ++ [Ev.rd] }, some (Except.ok a))
        | NbResult.err e =>
            ({ s with nr := s.nr + 1, tr := s.tr ++ [Ev.rd] }, some (Except.error e)) := by
  cases hw : rsc s.nr <;> simp [block, scriptDriver_read, hw]

lemma block_write_retry {W E : Type} (wsc : Nat → NbResult E Unit) (rsc : Nat → NbResult E W)
    (w : W) :
    ∀ (k fuel : Nat) (s : DrvState W),
      (∀ i, i < k → wsc (s.nw + i) = NbResult.wouldBlock) →
      wsc (s.nw + k) = NbResult.ok () → k < fuel →
      block (fun s => (scriptDriver wsc rsc).write s w) fuel s
        = ({ s with nw := s.nw + k + 1, tr := s.tr ++ List.replicate (k + 1) (Ev.wr w) },
           some (Except.ok ())) := by
  intro k
  induction k with
  | zero =>
    intro fuel s hwb hok hf
    obtain ⟨f, rfl⟩ : ∃ f, fuel = f + 1 := ⟨fuel - 1, by omega⟩
    rw [Nat.add_zero] at hok
    rw [block_scriptWrite_step, hok]
    simp
  | succ k ih =>
    intro fuel s hwb hok hf
    obtain ⟨f, rfl⟩ : ∃ f, fuel = f + 1 := ⟨fuel - 1, by omega⟩
    have h0 : wsc s.nw = NbResult.wouldBlock := by
      have := hwb 0 (Nat.succ_pos k)
      simpa using this
    rw [block_scriptWrite_step, h0]
    rw [ih f { s with nw := s.nw + 1, tr := s.tr ++ [Ev.wr w] }
      (fun i hi => by simpa [Nat.add_assoc, Nat.add_comm 1 i] using hwb (i + 1) (by omega))
      (by simpa [Nat.add_assoc, Nat.add_comm 1 k] using hok) (by omega)]
    simp [DrvState.mk.injEq, List.append_assoc, List.replicate_succ, Nat.add_comm,
      Nat.add_left_comm, Nat.add_assoc]

lemma block_read_retry {W E : Type} (wsc : Nat → NbResult E Unit) (rsc : Nat → NbResult E W)
    (v : W) :
    ∀ (k fuel : Nat) (s : DrvState W),
      (∀ i, i < k → rsc (s.nr + i) = NbResult.wouldBlock) →
      rsc (s.nr + k) = NbResult.ok v → k < fuel →
      block (scriptDriver wsc rsc).read fuel s
        = ({ s with nr := s.nr + k + 1, tr := s.tr ++ List.replicate (k + 1) Ev.rd },
           some (Except.ok v)) := by
  intro k
  induction k with
  | zero =>
    intro fuel s hwb hok hf
    obtain ⟨f, rfl⟩ : ∃ f, fuel = f + 1 := ⟨fuel - 1, by omega⟩
    rw [Nat.add_zero] at hok
    rw [block_scriptRead_step, hok]
    simp
  | succ k ih =>
    intro fuel s hwb hok hf
    obtain ⟨f, rfl⟩ : ∃ f, fuel = f + 1 := ⟨fuel - 1, by omega⟩
    have h0 : rsc s.nr = NbResult.wouldBlock := by
      have := hwb 0 (Nat.succ_pos k)
      simpa using this
    rw [block_scriptRead_step, h0]
    rw [ih f { s with nr := s.nr + 1, tr := s.tr ++ [Ev.rd] }
      (fun i hi => by simpa [Nat.add_assoc, Nat.add_comm 1 i] using hwb (i + 1) (by omega))
      (by simpa [Nat.add_assoc, Nat.add_comm 1 k] using hok) (by omega)]
    simp [DrvState.mk.injEq, List.append_assoc, List.replicate_succ, Nat.add_comm,
      Nat.add_left_comm, Nat.add_assoc]

lemma write_one_write_retry {W E : Type} (wsc : Nat → NbResult E Unit) (rv : Nat → W)
    (w : W) (k fuel : Nat) (s : DrvState W)
    (hwb : ∀ i, i < k → wsc (s.nw + i) = NbResult.wouldBlock)
    (hok : wsc (s.nw + k) = NbResult.ok ()) (hf : k < fuel) :
    write (scriptDriver wsc (fun n => NbResult.ok (rv n))) fuel [w] s
      = ({ nw := s.nw + k + 1, nr := s.nr + 1,
           tr := s.tr ++ List.replicate (k + 1) (Ev.wr w) ++ [Ev.rd] },
         some (Except.ok ())) := by
  obtain ⟨f, rfl⟩ : ∃ f, fuel = f + 1 := ⟨fuel - 1, by omega⟩
  have hb := block_write_retry wsc (fun n => NbResult.ok (rv n)) w k (f + 1) s hwb hok hf
  have hr : block (scriptDriver wsc (fun n => NbResult.ok (rv n))).read (f + 1)
      { s with nw := s.nw + k + 1, tr := s.tr ++ List.replicate (k + 1) (Ev.wr w) }
      = ({ nw := s.nw + k + 1, nr := s.nr + 1,
           tr := s.tr ++ List.replicate (k + 1) (Ev.wr w) ++ [Ev.rd] },
         some (Except.ok (rv s.nr))) := by
    simp [block_scriptRead_step]
  simp [write, hb, hr]

lemma write_one_read_retry {W E : Type} (rsc : Nat → NbResult E W) (v w : W)
    (k fuel : Nat) (s : DrvState W)
    (hwb : ∀ i, i < k → rsc (s.nr + i) = NbResult.wouldBlock)
    (hok : rsc (s.nr + k) = NbResult.ok v) (hf : k < fuel) :
    write (scriptDriver (fun _ => NbResult.ok ()) rsc) fuel [w] s
      = ({ nw := s.nw + 1, nr := s.nr + k + 1,
           tr := s.tr ++ [Ev.wr w] ++ List.replicate (k + 1) Ev.rd },
         some (Except.ok ())) := by
  obtain ⟨f, rfl⟩ : ∃ f, fuel = f + 1 := ⟨fuel - 1, by omega⟩
  have hb : block (fun s => (scriptDriver (fun _ => NbResult.ok ()) rsc).write s w) (f + 1) s
      = ({ s with nw := s.nw + 1, tr := s.tr ++ [Ev.wr w] }, some (Except.ok ())) := by
    simp [block_scriptWrite_step]
  have hr := block_read_retry (fun _ => NbResult.ok ()) rsc v k (f + 1)
    { s with nw := s.nw + 1, tr := s.tr ++ [Ev.wr w] }
    (by simpa using hwb) (by simpa using hok) hf
  simp [write, hb, hr, List.append_assoc]

lemma write_first_write_error {W E : Type} (wsc : Nat → NbResult E Unit) (rv : Nat → W)
    (e : E) :
    ∀ (ws : List W) (j fuel : Nat) (s : DrvState W) (hj : j < ws.length),
      (∀ i, i < j → wsc (s.nw + i) = NbResult.ok ()) →
      wsc (s.nw + j) = NbResult.err e →
      write (scriptDriver wsc (fun n => NbResult.ok (rv n))) (fuel + 1) ws s
        = ({ nw := s.nw + j + 1, nr := s.nr + j,
             tr := s.tr ++ pairTrace (ws.take j) ++ [Ev.wr (ws.get ⟨j, hj⟩)] },
           some (Except.error e)) := by
  intro ws
  induction ws with
  | nil =>
    intro j fuel s hj
    exact absurd hj (by simp)
  | cons w ws ih =>
    intro j fuel s hj hok he
    cases j with
    | zero =>
      rw [Nat.add_zero] at he
      have hb : block (fun s => (scriptDriver wsc (fun n => NbResult.ok (rv n))).write s w)
          (fuel + 1) s
          = ({ s with nw := s.nw + 1, tr := s.tr ++ [Ev.wr w] }, some (Except.error e)) := by
        simp [block_scriptWrite_step, he]
      simp [write, hb, pairTrace]
    | succ j =>
      have h0 : wsc s.nw = NbResult.ok () := by simpa using hok 0 (by omega)
      have hb : block (fun s => (scriptDriver wsc (fun n => NbResult.ok (rv n))).write s w)
          (fuel + 1) s
          = ({ s with nw := s.nw + 1, tr := s.tr ++ [Ev.wr w] }, some (Except.ok ())) := by
        simp [block_scriptWrite_step, h0]
      have hr : block (scriptDriver wsc (fun n => NbResult.ok (rv n))).read (fuel + 1)
          { s with nw := s.nw + 1, tr := s.tr ++ [Ev.wr w] }
          = ({ s with nw := s.nw + 1, nr := s.nr + 1, tr := s.tr ++ [Ev.wr w] ++ [Ev.rd] },
             some (Except.ok (rv s.nr))) := by
        simp [block_scriptRead_step]
      have ihs := ih j fuel
        { nw := s.nw + 1, nr := s.nr + 1, tr := s.tr ++ [Ev.wr w] ++ [Ev.rd] }
        (by simpa using Nat.lt_of_succ_lt_succ hj)
        (fun i hi => by simpa [Nat.add_assoc, Nat.add_comm 1 i] using hok (i + 1) (by omega))
        (by simpa [Nat.add_assoc, Nat.add_comm 1 j] using he)
      simp only [write, hb, hr]
      rw [ihs]
      simp [DrvState.mk.injEq, pairTrace, List.append_assoc, Nat.add_comm,
        Nat.add_left_comm, Nat.add_assoc]

lemma write_first_read_error {W E : Type} (rsc : Nat → NbResult E W) (rv : Nat → W)
    (e : E) :
    ∀ (ws : List W) (j fuel : Nat) (s : DrvState W) (hj : j < ws.length),
      (∀ i, i < j → rsc (s.nr + i) = NbResult.ok (rv (s.nr + i))) →
      rsc (s.nr + j) = NbResult.err e →
      write (scriptDriver (fun _ => NbResult.ok ()) rsc) (fuel + 1) ws s
        = ({ nw := s.nw + j + 1, nr := s.nr + j + 1,
             tr := s.tr ++ pairTrace (ws.take j) ++ [Ev.wr (ws.get ⟨j, hj⟩), Ev.rd] },
           some (Except.error e)) := by
  intro ws
  induction ws with
  | nil =>
    intro j fuel s hj
    exact absurd hj (by simp)
  | cons w ws ih =>
    intro j fuel s hj hok he
    have hb : block (fun s => (scriptDriver (fun _ => NbResult.ok ()) rsc).write s w)
        (fuel + 1) s
        = ({ s with nw := s.nw + 1, tr := s.tr ++ [Ev.wr w] }, some (Except.ok ())) := by
      simp [block_scriptWrite_step]
    cases j with
    | zero =>
      rw [Nat.add_zero] at he
      have hr : block (scriptDriver (fun _ => NbResult.ok ()) rsc).read (fuel + 1)
          { s with nw := s.nw + 1, tr := s.tr ++ [Ev.wr w] }
          = ({ s with nw := s.nw + 1, nr := s.nr + 1, tr := s.tr ++ [Ev.wr w] ++ [Ev.rd] },
             some (Except.error e)) := by
        simp [block_scriptRead_step, he]
      simp [write, hb, hr, pairTrace]
    | succ j =>
      have h0 : rsc s.nr = NbResult.ok (rv s.nr) := by simpa using hok 0 (by omega)
      have hr : block (scriptDriver (fun _ => NbResult.ok ()) rsc).read (fuel + 1)
          { s with nw := s.nw + 1, tr := s.tr ++ [Ev.wr w] }
          = ({ s with nw := s.nw + 1, nr := s.nr + 1, tr := s.tr ++ [Ev.wr w] ++ [Ev.rd] },
             some (Except.ok (rv s.nr))) := by
        simp [block_scriptRead_step, h0]
      have ihs := ih j fuel
        { nw := s.nw + 1, nr := s.nr + 1, tr := s.tr ++ [Ev.wr w] ++ [Ev.rd] }
        (by simpa using Nat.lt_of_succ_lt_succ hj)
        (fun i hi => by simpa [Nat.add_assoc, Nat.add_comm 1 i] using hok (i + 1) (by omega))
        (by simpa [Nat.add_assoc, Nat.add_comm 1 j] using he)
      simp only [write, hb, hr]
      rw [ihs]
      simp [DrvState.mk.injEq, pairTrace, List.append_assoc, Nat.add_comm,
        Nat.add_left_comm, Nat.add_assoc]

lemma scriptBus_write {W E : Type} (resp : Nat → Option E) (s : Nat × List (BusCall W))
    (ws : List W) :
    (scriptBus resp).write s ws
      = ((s.1 + 1, s.2 ++ [BusCall.w ws]),
         match resp s.1 with
         | none => Except.ok ()
         | some e => Except.error e) := rfl

lemma scriptBus_transfer {W E : Type} (resp : Nat → Option E) (s : Nat × List (BusCall W))
    (buf : List W) :
    (scriptBus resp).transfer s buf
      = ((s.1 + 1, s.2 ++ [BusCall.t buf]),
         match resp s.1 with
         | none => Except.ok buf
         | some e => Except.error e) := rfl

lemma exec_allok {W E : Type} (resp : Nat → Option E) :
    ∀ (ops : List (Operation W)) (n : Nat) (tr : List (BusCall W)),
      (∀ i, i < ops.length → resp (n + i) = none) →
      exec (scriptBus resp) ops (n, tr)
        = ((n + ops.length, tr ++ ops.map opCall), Except.ok ()) := by
  intro ops
  induction ops with
  | nil =>
    intro n tr h
    simp [exec]
  | cons op ops ih =>
    intro n tr h
    have h0 : resp n = none := by simpa using h 0 (by simp)
    have hs : ∀ i, i < ops.length → resp (n + 1 + i) = none := fun i hi => by
      simpa [Nat.add_assoc, Nat.add_comm 1 i] using h (i + 1) (by simpa using Nat.succ_lt_succ hi)
    cases op with
    | Write w =>
      simp only [exec, scriptBus_write, h0]
      rw [ih (n + 1) (tr ++ [BusCall.w w]) hs]
      simp [opCall, List.append_assoc, Nat.add_comm, Nat.add_left_comm, Nat.add_assoc]
    | Transfer t =>
      simp only [exec, scriptBus_transfer, h0]
      rw [ih (n + 1) (tr ++ [BusCall.t t]) hs]
      simp [opCall, List.append_assoc, Nat.add_comm, Nat.add_left_comm, Nat.add_assoc]

lemma exec_first_error {W E : Type} (resp : Nat → Option E) (e : E) :
    ∀ (ops : List (Operation W)) (j n : Nat) (tr : List (BusCall W)),
      j < ops.length →
      (∀ i, i < j → resp (n + i) = none) →
      resp (n + j) = some e →
      exec (scriptBus resp) ops (n, tr)
        = ((n + j + 1, tr ++ (ops.take (j + 1)).map opCall), Except.error e) := by
  intro ops
  induction ops with
  | nil =>
    intro j n tr hj
    exact absurd hj (by simp)
  | cons op ops ih =>
    intro j n tr hj hok he
    cases j with
    | zero =>
      rw [Nat.add_zero] at he
      cases op with
      | Write w => simp [exec, scriptBus_write, he, opCall]
      | Transfer t => simp [exec, scriptBus_transfer, he, opCall]
    | succ j =>
      have h0 : resp n = none := by simpa using hok 0 (by omega)
      have hs : ∀ i, i < j → resp (n + 1 + i) = none := fun i hi => by
        simpa [Nat.add_assoc, Nat.add_comm 1 i] using hok (i + 1) (by omega)
      have he1 : resp (n + 1 + j) = some e := by
        simpa [Nat.add_assoc, Nat.add_comm 1 j] using he
      have hj1 : j < ops.length := by simpa using Nat.lt_of_succ_lt_succ hj
      cases op with
      | Write w =>
        simp only [exec, scriptBus_write, h0]
        rw [ih j (n + 1) (tr ++ [BusCall.w w]) hj1 hs he1]
        simp [opCall, List.append_assoc, Nat.add_comm, Nat.add_left_comm, Nat.add_assoc]
      | Transfer t =>
        simp only [exec, scriptBus_transfer, h0]
        rw [ih j (n + 1) (tr ++ [BusCall.t t]) hj1 hs he1]
        simp [opCall, List.append_assoc, Nat.add_comm, Nat.add_left_comm, Nat.add_assoc]

lemma map_range_shift_succ {α : Type} (f : Nat → α) (c n : Nat) :
    (List.range (n + 1)).map (fun i => f (c + i))
      = f c :: (List.range n).map (fun i => f (c + 1 + i)) := by
  rw [List.range_succ_eq_map]
  simp only [List.map_cons, Nat.add_zero, List.map_map]
  have hfn : ((fun i => f (c + i)) ∘ Nat.succ) = fun i => f (c + 1 + i) := by
    funext i
    simp only [Function.comp]
    congr 1
    omega
  rw [hfn]

lemma block_allokWrite_one {W E : Type} (rsc : Nat → W) (w : W) (fuel : Nat)
    (s : DrvState W) :
    block (fun s =>
        (scriptDriver (E := E) (fun _ => NbResult.ok ()) (fun n => NbResult.ok (rsc n))).write s w)
      (fuel + 1) s
      = ({ s with nw := s.nw + 1, tr := s.tr ++ [Ev.wr w] }, some (Except.ok ())) := by
  simp [block_scriptWrite_step]

lemma block_allokRead_one {W E : Type} (rsc : Nat → W) (fuel : Nat) (s : DrvState W) :
    block (scriptDriver (E := E) (fun _ => NbResult.ok ()) (fun n => NbResult.ok (rsc n))).read
      (fuel + 1) s
      = ({ s with nr := s.nr + 1, tr := s.tr ++ [Ev.rd] }, some (Except.ok (rsc s.nr))) := by
  simp [block_scriptRead_step]

lemma transfer_rw_allok {W E : Type} (rsc : Nat → W) (fill : W) (fuel : Nat) :
    ∀ (rbuf wbuf : List W) (s : DrvState W),
      transfer_rw
          (scriptDriver (E := E) (fun _ => NbResult.ok ()) (fun n => NbResult.ok (rsc n)))
          fill (fuel + 1) rbuf wbuf s
        = ({ nw := s.nw + max rbuf.length wbuf.length,
             nr := s.nr + max rbuf.length wbuf.length,
             tr := s.tr ++ pairTrace
               (wbuf ++ List.replicate (max rbuf.length wbuf.length - wbuf.length) fill) },
           some (Except.ok ((List.range rbuf.length).map fun i => rsc (s.nr + i)))) := by
  intro rbuf
  induction rbuf with
  | nil =>
    intro wbuf
    induction wbuf with
    | nil =>
      intro s
      simp [transfer_rw, pairTrace]
    | cons w wb ihw =>
      intro s
      simp only [transfer_rw, block_allokWrite_one, block_allokRead_one]
      rw [ihw { nw := s.nw + 1, nr := s.nr + 1, tr := s.tr ++ [Ev.wr w] ++ [Ev.rd] }]
      simp [DrvState.mk.injEq, pairTrace, List.append_assoc, Nat.add_comm,
        Nat.add_left_comm, Nat.add_assoc]
  | cons r rb ihr =>
    intro wbuf s
    cases wbuf with
    | nil =>
      simp only [transfer_rw, List.headD_nil, List.tail_nil, block_allokWrite_one,
        block_allokRead_one]
      rw [ihr [] { nw := s.nw + 1, nr := s.nr + 1, tr := s.tr ++ [Ev.wr fill] ++ [Ev.rd] }]
      simp only [List.length_cons]
      rw [map_range_shift_succ (fun n => rsc n) s.nr rb.length]
      simp [DrvState.mk.injEq, pairTrace, List.append_assoc, List.replicate_succ,
        Nat.add_comm, Nat.add_left_comm, Nat.add_assoc]
    | cons w wb =>
      simp only [transfer_rw, List.headD_cons, List.tail_cons, block_allokWrite_one,
        block_allokRead_one]
      rw [ihr wb { nw := s.nw + 1, nr := s.nr + 1, tr := s.tr ++ [Ev.wr w] ++ [Ev.rd] }]
      simp only [List.length_cons]
      rw [map_range_shift_succ (fun n => rsc n) s.nr rb.length]
      simp only [Nat.succ_max_succ, Nat.succ_sub_succ]
      simp [DrvState.mk.injEq, pairTrace, List.append_assoc, Nat.add_comm,
        Nat.add_left_comm, Nat.add_assoc]

/-! ### Claims -/

/-- C7: for every buffer, the default blocking in-place `transfer` over the
echo driver (whose read returns the last written word) succeeds and leaves
the buffer equal to the words received in response to sending the original
words, i.e. the buffer round-trips unchanged. -/
theorem transfer_inplace_echo_roundtrip :
    ∀ (W E : Type) (buf : List W) (s : W) (fuel : Nat),
      transfer (echoDriver (E := E)) (fuel + 1) buf s
        = (lastOr s buf, some (Except.ok buf)) :=
  fun _ _ buf s fuel => transfer_echo buf s fuel

/-- C8: on each of the three canonical `ErrorKind` enumerations (i2c, spi,
serial), the `kind()` projection is the identity. -/
theorem error_kind_identity :
    (∀ k : errors.i2c.ErrorKind, k.kind = k) ∧
    (∀ k : errors.spi.ErrorKind, k.kind = k) ∧
    (∀ k : errors.serial.ErrorKind, k.kind = k) :=
  ⟨fun _ => rfl, fun _ => rfl, fun _ => rfl⟩

/-- C10: `destroy` after `new` returns exactly the bus and pin that were
supplied; `new` stores the two handles unchanged (construction and teardown
are pure round-trips on the handles, invoking no bus or pin operation). -/
theorem new_destroy_roundtrip :
    ∀ (Spi Pin : Type) (spi : Spi) (cs : Pin),
      SpiWithCs.destroy (SpiWithCs.new spi cs) = (spi, cs) ∧
      (SpiWithCs.new spi cs).spi = spi ∧ (SpiWithCs.new spi cs).cs = cs :=
  fun _ _ _ _ => ⟨rfl, rfl, rfl⟩

/-- C1: for `try_transfer`, `try_write` and `try_write_iter` of the
chip-select wrapper, when asserting succeeds and deasserting fails, the
deassert (`try_set_high`) is still performed after the bus operation was
attempted — the pin trace ends `low, high` and the bus is stepped — and the
returned result is the `Pin` error from the deassert, whatever the bus
operation returned (deassert failure takes priority over a captured bus
error). -/
theorem spi_with_cs_deassert_priority :
    ∀ (W σ SE PE : Type) (bus : SpiBus σ W SE) (s0 : σ) (t0 : List PinEv)
      (data : List W) (pe : PE),
      try_transfer bus (tracePin (Except.ok ()) (Except.error pe))
          { spi := s0, cs := t0 } data
        = ({ spi := (bus.transfer s0 data).1, cs := t0 ++ [PinEv.low, PinEv.high] },
           Except.error (SpiWithCsError.Pin pe)) ∧
      try_write bus (tracePin (Except.ok ()) (Except.error pe))
          { spi := s0, cs := t0 } data
        = ({ spi := (bus.write s0 data).1, cs := t0 ++ [PinEv.low, PinEv.high] },
           Except.error (SpiWithCsError.Pin pe)) ∧
      try_write_iter bus (tracePin (Except.ok ()) (Except.error pe))
          { spi := s0, cs := t0 } data
        = ({ spi := (bus.write_iter s0 data).1, cs := t0 ++ [PinEv.low, PinEv.high] },
           Except.error (SpiWithCsError.Pin pe)) := by
  intro W σ SE PE bus s0 t0 data pe
  refine ⟨?_, ?_, ?_⟩ <;>
    simp [try_transfer, try_write, try_write_iter, tracePin]

/-- C4: for `try_transfer`, `try_write` and `try_write_iter` of the
chip-select wrapper, when asserting the select pin fails the call returns
that error tagged `Pin` at once: the bus state is untouched (the bus
operation is never invoked) and the pin trace records only the failed
`low` attempt (no deassert is attempted). -/
theorem spi_with_cs_assert_fail_aborts :
    ∀ (W σ SE PE : Type) (bus : SpiBus σ W SE) (s0 : σ) (t0 : List PinEv)
      (data : List W) (pe : PE) (highRes : Except PE Unit),
      try_transfer bus (tracePin (Except.error pe) highRes)
          { spi := s0, cs := t0 } data
        = ({ spi := s0, cs := t0 ++ [PinEv.low] },
           Except.error (SpiWithCsError.Pin pe)) ∧
      try_write bus (tracePin (Except.error pe) highRes)
          { spi := s0, cs := t0 } data
        = ({ spi := s0, cs := t0 ++ [PinEv.low] },
           Except.error (SpiWithCsError.Pin pe)) ∧
      try_write_iter bus (tracePin (Except.error pe) highRes)
          { spi := s0, cs := t0 } data
        = ({ spi := s0, cs := t0 ++ [PinEv.low] },
           Except.error (SpiWithCsError.Pin pe)) := by
  intro W σ SE PE bus s0 t0 data pe highRes
  refine ⟨?_, ?_, ?_⟩ <;> rfl

/-- C5: for `try_transfer`, `try_write` and `try_write_iter` of the
chip-select wrapper, when the bus operation fails after a successful
assert, the select pin is still deasserted (the trace gains `low, high`)
and, the deassert succeeding, the returned error is the bus failure tagged
`Spi` — not swallowed or replaced. -/
theorem spi_with_cs_bus_error_still_deasserts :
    ∀ (W σ SE PE : Type) (bus : SpiBus σ W SE) (s0 : σ) (t0 : List PinEv)
      (data : List W),
      (∀ (s1 : σ) (e : SE), bus.transfer s0 data = (s1, Except.error e) →
        try_transfer bus (tracePin (Except.ok () : Except PE Unit) (Except.ok ()))
            { spi := s0, cs := t0 } data
          = ({ spi := s1, cs := t0 ++ [PinEv.low, PinEv.high] },
             Except.error (SpiWithCsError.Spi e))) ∧
      (∀ (s1 : σ) (e : SE), bus.write s0 data = (s1, Except.error e) →
        try_write bus (tracePin (Except.ok () : Except PE Unit) (Except.ok ()))
            { spi := s0, cs := t0 } data
          = ({ spi := s1, cs := t0 ++ [PinEv.low, PinEv.high] },
             Except.error (SpiWithCsError.Spi e))) ∧
      (∀ (s1 : σ) (e : SE), bus.write_iter s0 data = (s1, Except.error e) →
        try_write_iter bus (tracePin (Except.ok () : Except PE Unit) (Except.ok ()))
            { spi := s0, cs := t0 } data
          = ({ spi := s1, cs := t0 ++ [PinEv.low, PinEv.high] },
             Except.error (SpiWithCsError.Spi e))) := by
  intro W σ SE PE bus s0 t0 data
  refine ⟨?_, ?_, ?_⟩
  all_goals intro s1 e h
  · simp [try_transfer, tracePin, h]
  · simp [try_write, tracePin, h]
  · simp [try_write_iter, tracePin, h]

/-- C6: the default blocking `write` over the non-blocking primitive:
(1) over an always-succeeding driver it performs exactly `len(ws)`
underlying writes presenting the words in their original order (the trace
is `pairTrace ws`, whose written words are `ws` and whose write count is
`len(ws)`); (2) it retries a word while the primitive write returns
would-block, performing `k + 1` write calls when the first `k` responses
are would-block; (3) the first genuine error from the primitive write is
returned immediately, aborting the remaining words: only the first `j`
words are fully processed plus the failing write. -/
theorem blocking_write_contract :
    (∀ (W E : Type) (rsc : Nat → W) (ws : List W) (fuel : Nat) (s : DrvState W),
      write (scriptDriver (E := E) (fun _ => NbResult.ok ()) (fun n => NbResult.ok (rsc n)))
          (fuel + 1) ws s
        = ({ nw := s.nw + ws.length, nr := s.nr + ws.length, tr := s.tr ++ pairTrace ws },
           some (Except.ok ()))
      ∧ wrWords (pairTrace ws) = ws ∧ wrCount (pairTrace ws) = ws.length) ∧
    (∀ (W E : Type) (wsc : Nat → NbResult E Unit) (rv : Nat → W) (w : W) (k fuel : Nat)
        (s : DrvState W),
      (∀ i, i < k → wsc (s.nw + i) = NbResult.wouldBlock) →
      wsc (s.nw + k) = NbResult.ok () → k < fuel →
      write (scriptDriver wsc (fun n => NbResult.ok (rv n))) fuel [w] s
        = ({ nw := s.nw + k + 1, nr := s.nr + 1,
             tr := s.tr ++ List.replicate (k + 1) (Ev.wr w) ++ [Ev.rd] },
           some (Except.ok ()))) ∧
    (∀ (W E : Type) (wsc : Nat → NbResult E Unit) (rv : Nat → W) (e : E) (ws : List W)
        (j fuel : Nat) (s : DrvState W) (hj : j < ws.length),
      (∀ i, i < j → wsc (s.nw + i) = NbResult.ok ()) →
      wsc (s.nw + j) = NbResult.err e →
      write (scriptDriver wsc (fun n => NbResult.ok (rv n))) (fuel + 1) ws s
        = ({ nw := s.nw + j + 1, nr := s.nr + j,
             tr := s.tr ++ pairTrace (ws.take j) ++ [Ev.wr (ws.get ⟨j, hj⟩)] },
           some (Except.error e))) :=
  ⟨fun _ _ rsc ws fuel s =>
    ⟨write_allok rsc fuel ws s, pairTrace_wrWords ws, pairTrace_wrCount ws⟩,
   fun _ _ wsc rv w k fuel s hwb hok hf =>
    write_one_write_retry wsc rv w k fuel s hwb hok hf,
   fun _ _ wsc rv e ws j fuel s hj hok he =>
    write_first_write_error wsc rv e ws j fuel s hj hok he⟩

/-- C6 witness: concrete runs of the three parts — an always-ready driver
over two words, a driver blocking twice before accepting one word, and a
driver failing on its second write. -/
theorem blocking_write_contract_witness :
    (write (scriptDriver (E := Nat) (fun _ => NbResult.ok ()) (fun n => NbResult.ok n)) 1 [5, 6]
        { nw := 0, nr := 0, tr := [] }
      = ({ nw := 2, nr := 2, tr := pairTrace [5, 6] }, some (Except.ok ()))) ∧
    (write (scriptDriver (E := Nat)
        (fun m => if m < 2 then NbResult.wouldBlock else NbResult.ok ())
        (fun n => NbResult.ok n)) 3 [7] { nw := 0, nr := 0, tr := [] }
      = ({ nw := 3, nr := 1, tr := List.replicate 3 (Ev.wr 7) ++ [Ev.rd] },
         some (Except.ok ()))) ∧
    (write (scriptDriver (E := Nat)
        (fun m => if m < 1 then NbResult.ok () else NbResult.err 9)
        (fun n => NbResult.ok n)) 1 [7, 8, 3] { nw := 0, nr := 0, tr := [] }
      = ({ nw := 2, nr := 1, tr := pairTrace [7] ++ [Ev.wr 8] },
         some (Except.error 9))) := by
  have h := blocking_write_contract
  refine ⟨?_, ?_, ?_⟩
  · have h1 := (h.1 Nat Nat (fun n => n) [5, 6] 0 { nw := 0, nr := 0, tr := [] }).1
    simpa using h1
  · have h2 := h.2.1 Nat Nat (fun m => if m < 2 then NbResult.wouldBlock else NbResult.ok ())
      (fun n => n) 7 2 3 { nw := 0, nr := 0, tr := [] } (by decide) (by decide) (by decide)
    simpa using h2
  · have h3 := h.2.2 Nat Nat (fun m => if m < 1 then NbResult.ok () else NbResult.err 9)
      (fun n => n) 9 [7, 8, 3] 1 0 { nw := 0, nr := 0, tr := [] } (by decide)
      (by decide) (by decide)
    simpa using h3

/-- C9: the default blocking `write` and `write_iter` each perform exactly
one primitive read immediately after each word written, discarding the
value read: (1) over an always-ready driver both leave the trace
`pairTrace ws` (one read right after each write), whose read count equals
the number of words; (2) a would-block from the read is retried, `k + 1`
read calls happening when the first `k` responses are would-block; (3) a
genuine error from the read aborts the operation and is returned, only the
first `j` words being fully processed plus the failing word's write and
read. -/
theorem blocking_write_read_pairing :
    (∀ (W E : Type) (rsc : Nat → W) (ws : List W) (fuel : Nat) (s : DrvState W),
      (write (scriptDriver (E := E) (fun _ => NbResult.ok ()) (fun n => NbResult.ok (rsc n)))
          (fuel + 1) ws s
        = ({ nw := s.nw + ws.length, nr := s.nr + ws.length, tr := s.tr ++ pairTrace ws },
           some (Except.ok ()))
       ∧ write_iter (scriptDriver (E := E) (fun _ => NbResult.ok ())
            (fun n => NbResult.ok (rsc n))) (fuel + 1) ws s
        = ({ nw := s.nw + ws.length, nr := s.nr + ws.length, tr := s.tr ++ pairTrace ws },
           some (Except.ok ())))
      ∧ rdCount (pairTrace ws) = ws.length) ∧
    (∀ (W E : Type) (rsc : Nat → NbResult E W) (v w : W) (k fuel : Nat) (s : DrvState W),
      (∀ i, i < k → rsc (s.nr + i) = NbResult.wouldBlock) →
      rsc (s.nr + k) = NbResult.ok v → k < fuel →
      write (scriptDriver (fun _ => NbResult.ok ()) rsc) fuel [w] s
        = ({ nw := s.nw + 1, nr := s.nr + k + 1,
             tr := s.tr ++ [Ev.wr w] ++ List.replicate (k + 1) Ev.rd },
           some (Except.ok ()))
      ∧ write_iter (scriptDriver (fun _ => NbResult.ok ()) rsc) fuel [w] s
        = ({ nw := s.nw + 1, nr := s.nr + k + 1,
             tr := s.tr ++ [Ev.wr w] ++ List.replicate (k + 1) Ev.rd },
           some (Except.ok ()))) ∧
    (∀ (W E : Type) (rsc : Nat → NbResult E W) (rv : Nat → W) (e : E) (ws : List W)
        (j fuel : Nat) (s : DrvState W) (hj : j < ws.length),
      (∀ i, i < j → rsc (s.nr + i) = NbResult.ok (rv (s.nr + i))) →
      rsc (s.nr + j) = NbResult.err e →
      write (scriptDriver (fun _ => NbResult.ok ()) rsc) (fuel + 1) ws s
        = ({ nw := s.nw + j + 1, nr := s.nr + j + 1,
             tr := s.tr ++ pairTrace (ws.take j) ++ [Ev.wr (ws.get ⟨j, hj⟩), Ev.rd] },
           some (Except.error e))
      ∧ write_iter (scriptDriver (fun _ => NbResult.ok ()) rsc) (fuel + 1) ws s
        = ({ nw := s.nw + j + 1, nr := s.nr + j + 1,
             tr := s.tr ++ pairTrace (ws.take j) ++ [Ev.wr (ws.get ⟨j, hj⟩), Ev.rd] },
           some (Except.error e))) :=
  ⟨fun _ _ rsc ws fuel s =>
    ⟨⟨write_allok rsc fuel ws s,
      (write_iter_eq_write _ _ ws s).trans (write_allok rsc fuel ws s)⟩,
     pairTrace_rdCount ws⟩,
   fun _ _ rsc v w k fuel s hwb hok hf =>
    ⟨write_one_read_retry rsc v w k fuel s hwb hok hf,
     (write_iter_eq_write _ _ [w] s).trans (write_one_read_retry rsc v w k fuel s hwb hok hf)⟩,
   fun _ _ rsc rv e ws j fuel s hj hok he =>
    ⟨write_first_read_error rsc rv e ws j fuel s hj hok he,
     (write_iter_eq_write _ _ ws s).trans
       (write_first_read_error rsc rv e ws j fuel s hj hok he)⟩⟩

/-- C9 witness: concrete runs of the three parts — an always-ready driver
over two words, a read blocking twice before delivering for one word, and a
read failing on the second word. -/
theorem blocking_write_read_pairing_witness :
    (write_iter (scriptDriver (E := Nat) (fun _ => NbResult.ok ()) (fun n => NbResult.ok n)) 1
        [5, 6] { nw := 0, nr := 0, tr := [] }
      = ({ nw := 2, nr := 2, tr := pairTrace [5, 6] }, some (Except.ok ()))
     ∧ rdCount (pairTrace ([5, 6] : List Nat)) = 2) ∧
    (write (scriptDriver (E := Nat) (fun _ => NbResult.ok ())
        (fun m => if m < 2 then NbResult.wouldBlock else NbResult.ok 4)) 3 [7]
        { nw := 0, nr := 0, tr := [] }
      = ({ nw := 1, nr := 3, tr := [Ev.wr 7] ++ List.replicate 3 Ev.rd },
         some (Except.ok ()))) ∧
    (write (scriptDriver (E := Nat) (fun _ => NbResult.ok ())
        (fun m => if m < 1 then NbResult.ok m else NbResult.err 9)) 1 [7, 8, 3]
        { nw := 0, nr := 0, tr := [] }
      = ({ nw := 2, nr := 2, tr := pairTrace [7] ++ [Ev.wr 8, Ev.rd] },
         some (Except.error 9))) := by
  have h := blocking_write_read_pairing
  refine ⟨⟨?_, ?_⟩, ?_, ?_⟩
  · have h1 := ((h.1 Nat Nat (fun n => n) [5, 6] 0 { nw := 0, nr := 0, tr := [] }).1).2
    simpa using h1
  · exact (h.1 Nat Nat (fun n => n) [5, 6] 0 { nw := 0, nr := 0, tr := [] }).2
  · have h2 := (h.2.1 Nat Nat (fun m => if m < 2 then NbResult.wouldBlock else NbResult.ok 4)
      4 7 2 3 { nw := 0, nr := 0, tr := [] } (by decide) (by decide) (by decide)).1
    simpa using h2
  · have h3 := (h.2.2 Nat Nat (fun m => if m < 1 then NbResult.ok m else NbResult.err 9)
      (fun m => m) 9 [7, 8, 3] 1 0 { nw := 0, nr := 0, tr := [] } (by decide)
      (by decide) (by decide)).1
    simpa using h3

/-- C3: the transactional `exec` invokes the underlying blocking calls in
the exact order of the operation sequence, `Write` delegating to the bus
write and `Transfer` to the bus in-place transfer (the trace is
`ops.map opCall`); when every operation succeeds it returns `Ok(())` after
exactly `len(ops)` calls, and the first operation that errors aborts the
remaining ones — the call count is the failing index plus one, the calls
already made are not undone (the trace keeps them), and the error is
returned. -/
theorem exec_sequence_first_error_aborts :
    (∀ (W E : Type) (resp : Nat → Option E) (ops : List (Operation W)),
      (∀ i, i < ops.length → resp i = none) →
      exec (scriptBus resp) ops (0, [])
        = ((ops.length, ops.map opCall), Except.ok ())) ∧
    (∀ (W E : Type) (resp : Nat → Option E) (e : E) (ops : List (Operation W)) (j : Nat),
      j < ops.length → (∀ i, i < j → resp i = none) → resp j = some e →
      exec (scriptBus resp) ops (0, [])
        = ((j + 1, (ops.take (j + 1)).map opCall), Except.error e)) := by
  constructor
  · intro W E resp ops h
    have h1 := exec_allok resp ops 0 [] (fun i hi => by simpa using h i hi)
    simpa using h1
  · intro W E resp e ops j hj hok he
    have h1 := exec_first_error resp e ops j 0 [] hj (fun i hi => by simpa using hok i hi)
      (by simpa using he)
    simpa using h1

/-- C3 witness: a three-operation transaction run over an always-succeeding
bus (all three calls made, in order) and over a bus failing at the second
call (exactly two calls made, error returned). -/
theorem exec_sequence_first_error_aborts_witness :
    (exec (scriptBus (fun _ => (none : Option Nat)))
        [Operation.Write [1], Operation.Transfer [2, 3], Operation.Write [4]] (0, [])
      = ((3, [BusCall.w [1], BusCall.t [2, 3], BusCall.w [4]]), Except.ok ())) ∧
    (exec (scriptBus (fun j => if j = 1 then some 9 else (none : Option Nat)))
        [Operation.Write [1], Operation.Transfer [2, 3], Operation.Write [4]] (0, [])
      = ((2, [BusCall.w [1], BusCall.t [2, 3]]), Except.error 9)) := by
  have h := exec_sequence_first_error_aborts
  constructor
  · have h1 := h.1 Nat Nat (fun _ => none)
      [Operation.Write [1], Operation.Transfer [2, 3], Operation.Write [4]]
      (fun i _ => rfl)
    simpa using h1
  · have h2 := h.2 Nat Nat (fun j => if j = 1 then some 9 else none) 9
      [Operation.Write [1], Operation.Transfer [2, 3], Operation.Write [4]] 1
      (by decide) (by decide) (by decide)
    simpa using h2

/-- C2: the separate-buffer `transfer(read_buf, write_buf)` (modelled from
the spec as `transfer_rw`, the operation being absent from the provided
sources) performs exactly `max(m, n)` word exchanges for buffers of lengths
`m` and `n`: the trace pairs one write and one read per step; the words
sent are `write_buf[i]` for `i < n` and the fill value beyond; every
received word with index `< m` lands in the result at its index (the
result is the first `m` read values, so words beyond index `m` are
discarded and the read buffer keeps its own length). -/
theorem transfer_rw_exchanges :
    ∀ (W E : Type) (rsc : Nat → W) (fill : W) (fuel : Nat) (rbuf wbuf : List W)
      (s : DrvState W),
      transfer_rw
          (scriptDriver (E := E) (fun _ => NbResult.ok ()) (fun n => NbResult.ok (rsc n)))
          fill (fuel + 1) rbuf wbuf s
        = ({ nw := s.nw + max rbuf.length wbuf.length,
             nr := s.nr + max rbuf.length wbuf.length,
             tr := s.tr ++ pairTrace (wbuf ++ List.replicate
               (max rbuf.length wbuf.length - wbuf.length) fill) },
           some (Except.ok ((List.range rbuf.length).map fun i => rsc (s.nr + i))))
      ∧ wrWords (pairTrace (wbuf ++ List.replicate
            (max rbuf.length wbuf.length - wbuf.length) fill))
          = wbuf ++ List.replicate (max rbuf.length wbuf.length - wbuf.length) fill
      ∧ wrCount (pairTrace (wbuf ++ List.replicate
            (max rbuf.length wbuf.length - wbuf.length) fill))
          = max rbuf.length wbuf.length
      ∧ rdCount (pairTrace (wbuf ++ List.replicate
            (max rbuf.length wbuf.length - wbuf.length) fill))
          = max rbuf.length wbuf.length
      ∧ ((List.range rbuf.length).map fun i => rsc (s.nr + i)).length = rbuf.length := by
  intro W E rsc fill fuel rbuf wbuf s
  refine ⟨transfer_rw_allok rsc fill fuel rbuf wbuf s, pairTrace_wrWords _, ?_, ?_, by simp⟩
  · rw [pairTrace_wrCount]
    simp only [List.length_append, List.length_replicate]
    omega
  · rw [pairTrace_rdCount]
    simp only [List.length_append, List.length_replicate]
    omega

/-- C5 witness: a concrete bus whose every operation fails; the wrapper
deasserts and surfaces the bus error for all three operations. -/
theorem spi_with_cs_bus_error_still_deasserts_witness :
    try_transfer
        (SpiBus.mk (fun s _ => (s, Except.error 3)) (fun s _ => (s, Except.error 4))
          (fun s _ => (s, Except.error 5)))
        (tracePin (Except.ok () : Except Nat Unit) (Except.ok ())) { spi := (), cs := [] } [1, 2]
      = ({ spi := (), cs := [PinEv.low, PinEv.high] },
         Except.error (SpiWithCsError.Spi 3)) ∧
    try_write
        (SpiBus.mk (fun s _ => (s, Except.error 3)) (fun s _ => (s, Except.error 4))
          (fun s _ => (s, Except.error 5)))
        (tracePin (Except.ok () : Except Nat Unit) (Except.ok ())) { spi := (), cs := [] } [1, 2]
      = ({ spi := (), cs := [PinEv.low, PinEv.high] },
         Except.error (SpiWithCsError.Spi 4)) ∧
    try_write_iter
        (SpiBus.mk (fun s _ => (s, Except.error 3)) (fun s _ => (s, Except.error 4))
          (fun s _ => (s, Except.error 5)))
        (tracePin (Except.ok () : Except Nat Unit) (Except.ok ())) { spi := (), cs := [] } [1, 2]
      = ({ spi := (), cs := [PinEv.low, PinEv.high] },
         Except.error (SpiWithCsError.Spi 5)) := by
  have h := spi_with_cs_bus_error_still_deasserts Nat Unit Nat Nat
    (SpiBus.mk (fun s _ => (s, Except.error 3)) (fun s _ => (s, Except.error 4))
      (fun s _ => (s, Except.error 5))) () [] [1, 2]
  exact ⟨h.1 () 3 rfl, h.2.1 () 4 rfl, h.2.2 () 5 rfl⟩

end EmbeddedHal
